import Mathlib

/-
Verification of the `cetkaik_traits` interface crate.

The crate declares the traits `IsBoard`, `IsField`, `IsPieceWithSide` and the
facade trait `CetkaikRepresentation`.  The only executable code in the crate
is the default method bodies (`IsBoard::mov`, `IsPieceWithSide::has_prof`,
and the deprecated free-function facade methods).  We embed a trait as a
structure of operations; a default method body becomes a Lean function taking
that structure as an argument, translated line by line from the Rust source.
A Rust `&mut self` method is embedded as a function returning the new value;
a panic is embedded as the `none` branch of an `Option` result.

The documented contracts of the abstract primitives (`peek`, `pop`, `put`,
`assert_empty`, `assert_occupied`) are collected in `LawfulBoard`; theorems
about the generic default methods take `LawfulBoard` as a hypothesis and are
instantiated on the concrete model board `fnBoard` for witnesses.
-/

namespace CetkaikTraits

/-- Embedding of the trait `IsBoard` (src/lib.rs, lines 14-47): the abstract
primitive operations, over a board type `B`, coordinate type `C` and piece
type `P`.  `pop` is `&mut self` in Rust, so here it returns the popped value
together with the updated board; `put` returns the updated board.
`assert_empty` and `assert_occupied` panic on failure in Rust; here they
return `false` when the assertion fails fatally. -/
structure IsBoard (B C P : Type) where
  peek : B → C → Option P
  pop : B → C → Option P × B
  put : B → C → Option P → B
  assert_empty : B → C → Bool
  assert_occupied : B → C → Bool

/-- Embedding of the default method body `IsBoard::mov` (src/lib.rs, lines
35-43): `self.pop(from).map_or_else(|| panic!(..), |src_piece| {
self.assert_empty(to); self.put(to, Some(src_piece)); })`.  A panic (either
the explicit one on an empty `from`, or `assert_empty` failing on `to`)
is the `none` result. -/
def IsBoard.mov {B C P : Type} (ops : IsBoard B C P) (b : B) (src dst : C) :
    Option B :=
  match ops.pop b src with
  | (none, _) => none
  | (some srcPiece, b1) =>
    if ops.assert_empty b1 dst then some (ops.put b1 dst (some srcPiece))
    else none

/-- The documented contracts of the abstract `IsBoard` primitives, from the
spec: `peek` reads without mutation; `pop(c)` removes and returns whatever was
at `c` and leaves `c` empty, touching no other slot; `put(c, x)` sets the slot
at `c` exactly to `x`, touching no other slot; `assert_empty`/`assert_occupied`
fail fatally exactly when the square is occupied/empty. -/
structure LawfulBoard {B C P : Type} (ops : IsBoard B C P) : Prop where
  pop_fst : ∀ b c, (ops.pop b c).1 = ops.peek b c
  pop_self : ∀ b c, ops.peek (ops.pop b c).2 c = none
  pop_frame : ∀ b c d, d ≠ c → ops.peek (ops.pop b c).2 d = ops.peek b d
  put_self : ∀ b c x, ops.peek (ops.put b c x) c = x
  put_frame : ∀ b c x d, d ≠ c → ops.peek (ops.put b c x) d = ops.peek b d
  empty_iff : ∀ b c, ops.assert_empty b c = (ops.peek b c).isNone
  occupied_iff : ∀ b c, ops.assert_occupied b c = (ops.peek b c).isSome

/-- A concrete conforming board implementation used for witnesses: a total
function from the three coordinates to optional pieces. -/
def fnBoard : IsBoard (Fin 3 → Option Nat) (Fin 3) Nat where
  peek := fun b c => b c
  pop := fun b c => (b c, Function.update b c none)
  put := fun b c x => Function.update b c x
  assert_empty := fun b c => (b c).isNone
  assert_occupied := fun b c => (b c).isSome

/-- A concrete board with every square occupied. -/
def bAllOccupied : Fin 3 → Option Nat := fun _ => some 7

/-- A concrete board with a piece at square 0 only. -/
def bZeroOnly : Fin 3 → Option Nat := fun c => if c = 0 then some 5 else none

theorem fnBoard_lawful : LawfulBoard fnBoard := by
  refine ⟨?_, ?_, ?_, ?_, ?_, ?_, ?_⟩
  · intro b c; rfl
  · intro b c; simp [fnBoard]
  · intro b c d hd; simp [fnBoard, Function.update_noteq hd]
  · intro b c x; simp [fnBoard]
  · intro b c x d hd; simp [fnBoard, Function.update_noteq hd]
  · intro b c; rfl
  · intro b c; rfl

/-- Embedding of the trait `IsPieceWithSide` (src/lib.rs, lines 107-120): the
sole abstract primitive `match_on_piece_and_apply`, a total case analysis
calling `f_tam` on the neutral piece and `f_piece(color, profession, side)`
otherwise, over a piece type `P` with side type `S` and the externally
supplied opaque `Color` and `Prof` vocabularies. -/
structure IsPieceWithSide (P S Color Prof : Type) where
  match_on_piece_and_apply :
    ∀ {U : Type}, P → (Unit → U) → (Color → Prof → S → U) → U

/-- Embedding of the default method body `IsPieceWithSide::has_prof`
(src/lib.rs, lines 109-114):
`self.match_on_piece_and_apply(&|| false, &|_, p, _| p == prof)`. -/
def IsPieceWithSide.has_prof {P S Color Prof : Type} [DecidableEq Prof]
    (ops : IsPieceWithSide P S Color Prof) (piece : P) (prof : Prof) : Bool :=
  ops.match_on_piece_and_apply piece (fun _ => false)
    (fun _ p _ => decide (p = prof))

/-- Embedding of the deprecated default method
`CetkaikRepresentation::relative_get` (src/lib.rs, lines 157-163):
`board.peek(coord)`. -/
def relative_get {B C P : Type} (ops : IsBoard B C P) (board : B) (coord : C) :
    Option P :=
  ops.peek board coord

/-- Embedding of the deprecated default method
`CetkaikRepresentation::absolute_get` (src/lib.rs, lines 174-180):
`board.peek(coord)`. -/
def absolute_get {B C P : Type} (ops : IsBoard B C P) (board : B) (coord : C) :
    Option P :=
  ops.peek board coord

/-- Embedding of the deprecated default method
`CetkaikRepresentation::has_prof_absolute` (src/lib.rs, lines 246-249):
`piece.has_prof(prof)`. -/
def has_prof_absolute {P S Color Prof : Type} [DecidableEq Prof]
    (ops : IsPieceWithSide P S Color Prof) (piece : P) (prof : Prof) : Bool :=
  ops.has_prof piece prof

/-- Embedding of the deprecated default method
`CetkaikRepresentation::relative_clone_and_set` (src/lib.rs, lines 164-173):
`let mut new_board = *board; new_board.put(coord, p); new_board` — the input
board is copied by value, `put` runs on the copy, and the copy is returned;
in the pure embedding this is exactly `put` on the (unchanged) input. -/
def relative_clone_and_set {B C P : Type} (ops : IsBoard B C P) (board : B)
    (coord : C) (p : Option P) : B :=
  ops.put board coord p

/-- Embedding of the deprecated default method
`CetkaikRepresentation::match_on_piece_and_apply` (src/lib.rs, lines 185-192):
`piece.match_on_piece_and_apply(f_tam, &|_c, p, s| f_piece(p, s))` — the
facade handler receives only profession and side; the color is discarded. -/
def facade_match_on_piece_and_apply {P S Color Prof : Type}
    (ops : IsPieceWithSide P S Color Prof) {U : Type} (piece : P)
    (f_tam : Unit → U) (f_piece : Prof → S → U) : U :=
  ops.match_on_piece_and_apply piece f_tam (fun _c p s => f_piece p s)

/-- The two player sides, `cetkaik_fundamental::AbsoluteSide` of the external
crate: `ASide` and `IASide`. -/
inductive AbsoluteSide
  | ASide
  | IASide
deriving DecidableEq

/-- A concrete piece representation conforming to the spec's data model
(spec §3: a piece is either the unique neutral piece Tam2, or an ordinary
piece carrying a color, a profession and a side); used to instantiate the
abstract piece interface and to model the Field operations. -/
inductive PieceWithSide (Color Prof Side : Type)
  | tam2 : PieceWithSide Color Prof Side
  | piece : Color → Prof → Side → PieceWithSide Color Prof Side
deriving DecidableEq

/-- The `IsPieceWithSide` operations of the concrete piece representation:
the total case analysis demanded by the trait contract. -/
def pieceOps (Color Prof Side : Type) :
    IsPieceWithSide (PieceWithSide Color Prof Side) Side Color Prof where
  match_on_piece_and_apply := fun piece f_tam f_piece =>
    match piece with
    | .tam2 => f_tam ()
    | .piece c p s => f_piece c p s

/-- A concrete stand-in for the opaque external `Color` vocabulary
(`cetkaik_fundamental::Color`). -/
inductive TColor
  | kok1
  | huok2
deriving DecidableEq

/-- A concrete stand-in for part of the opaque external `Profession`
vocabulary (`cetkaik_fundamental::Profession`). -/
inductive TProf
  | nuak1
  | kauk2
  | dau2
deriving DecidableEq

/-- Modelled from the spec: the trait `IsField` (src/lib.rs, lines 61-105)
only declares its two transactional operations without a default body, so the
Field state is modelled from spec §3: one Board (a total function from
coordinates to optional pieces) plus one hop1zuo1 reserve (a multiset of
color-profession pairs, carried as a list) per side. -/
structure Field (Coord Color Prof : Type) where
  board : Coord → Option (PieceWithSide Color Prof AbsoluteSide)
  hop1zuo1 : AbsoluteSide → List (Color × Prof)

/-- The four recoverable failures of the move transaction, named after the
error conditions documented on the trait method (src/lib.rs, lines 72-76);
the Rust method reports them as `Err(&'static str)` values. -/
inductive MoveError
  | srcIsUnoccupied
  | srcHasTam2
  | dstHasTam2
  | srcDoesNotBelongToWhoseTurn
deriving DecidableEq

/-- Modelled from the spec:
`IsField::move_nontam_piece_from_src_to_dest_while_taking_opponent_piece_if_needed`
(src/lib.rs, lines 77-84) has no default implementation in the source; this
follows spec §4.3 and the four documented error conditions, in their
documented order: reject if `src` is unoccupied, if `src` holds Tam2, if
`dst` holds Tam2, or if the piece at `src` does not belong to `whose_turn`;
otherwise capture any ordinary piece at `dst` into `whose_turn`'s reserve
(color and profession preserved) and relocate the moving piece from `src`
to `dst`, returning the new Field. -/
def Field.move_nontam_piece_from_src_to_dest_while_taking_opponent_piece_if_needed
    {Coord Color Prof : Type} [DecidableEq Coord]
    (f : Field Coord Color Prof) (src dst : Coord)
    (whose_turn : AbsoluteSide) :
    Except MoveError (Field Coord Color Prof) :=
  match f.board src with
  | none => .error .srcIsUnoccupied
  | some .tam2 => .error .srcHasTam2
  | some (.piece c p s) =>
    match f.board dst with
    | some .tam2 => .error .dstHasTam2
    | o =>
      if s = whose_turn then
        let captured : List (Color × Prof) :=
          match o with
          | some (.piece cc pp _) => [(cc, pp)]
          | _ => []
        .ok
          { board := fun x =>
              if x = dst then some (.piece c p s)
              else if x = src then none
              else f.board x
            hop1zuo1 := fun sd =>
              if sd = whose_turn then captured ++ f.hop1zuo1 sd
              else f.hop1zuo1 sd }
      else .error .srcDoesNotBelongToWhoseTurn

/-- Modelled from the spec: `IsField::search_from_hop1zuo1_and_parachute_at`
(src/lib.rs, lines 89-97) has no default implementation in the source; this
follows its doc comment and spec §4.3: if no matching (color, profession)
entry is in `side`'s reserve, or `dest` is already occupied, yield `none`;
otherwise remove one matching entry from the reserve, place an ordinary
piece tagged with `side` at `dest`, and return the new Field. -/
def Field.search_from_hop1zuo1_and_parachute_at
    {Coord Color Prof : Type} [DecidableEq Coord] [DecidableEq Color]
    [DecidableEq Prof] (f : Field Coord Color Prof) (color : Color)
    (prof : Prof) (side : AbsoluteSide) (dest : Coord) :
    Option (Field Coord Color Prof) :=
  if (color, prof) ∈ f.hop1zuo1 side then
    match f.board dest with
    | some _ => none
    | none =>
      some
        { board := fun x =>
            if x = dest then some (.piece color prof side) else f.board x
          hop1zuo1 := fun sd =>
            if sd = side then (f.hop1zuo1 sd).erase (color, prof)
            else f.hop1zuo1 sd }
  else none

/-- Modelled from the spec: `CetkaikRepresentation::Perspective` is an opaque
value selecting which side's point of view a relative coordinate is
expressed in (spec §3); two values, one per side looking at the board. -/
inductive Perspective
  | iaIsDownAndPointsUpward
  | aIsDownAndPointsUpward
deriving DecidableEq

/-- Coordinates of the 9x9 board: a row index and a column index. -/
abbrev Coord9 : Type := Fin 9 × Fin 9

/-- Modelled from the spec: `CetkaikRepresentation::to_absolute_coord`
(src/lib.rs, line 150) is declared without an implementation; per spec §3 it
is a perspective-parameterized bijection that may mirror rows and columns —
the identity for one perspective and the 180-degree rotation of the board
for the other. -/
def to_absolute_coord (c : Coord9) (p : Perspective) : Coord9 :=
  match p with
  | .iaIsDownAndPointsUpward => c
  | .aIsDownAndPointsUpward =>
    (⟨8 - c.1.val, by omega⟩, ⟨8 - c.2.val, by omega⟩)

/-- Modelled from the spec: `CetkaikRepresentation::to_relative_coord`
(src/lib.rs, line 151) is declared without an implementation; the inverse of
`to_absolute_coord` under the same perspective. -/
def to_relative_coord (c : Coord9) (p : Perspective) : Coord9 :=
  match p with
  | .iaIsDownAndPointsUpward => c
  | .aIsDownAndPointsUpward =>
    (⟨8 - c.1.val, by omega⟩, ⟨8 - c.2.val, by omega⟩)

/-- A concrete empty field over three coordinates, used for witnesses. -/
def fEmpty : Field (Fin 3) TColor TProf where
  board := fun _ => none
  hop1zuo1 := fun _ => []

/-- A concrete field used for witnesses: side `ASide`'s soldier at square 0,
side `IASide`'s piece at square 1, square 2 empty; `ASide` holds one
(kok1, kauk2) reserve entry. -/
def fSample : Field (Fin 3) TColor TProf where
  board := fun c =>
    if c = 0 then some (.piece .kok1 .kauk2 .ASide)
    else if c = 1 then some (.piece .huok2 .dau2 .IASide)
    else none
  hop1zuo1 := fun sd => if sd = .ASide then [(.kok1, .kauk2)] else []

/-- C2 counterexample: on the conforming board `bAllOccupied` (every square
occupied, and the primitives lawful), calling the default `mov` with
`from = to = 0` does not fail fatally, contradicting the claim that `mov`
panics whenever the destination is occupied "including in the case
from == to": `pop(from)` vacates the square before `assert_empty(to)` runs. -/
theorem mov_dst_occupied_no_panic_when_src_eq_dst :
    LawfulBoard fnBoard ∧ (fnBoard.peek bAllOccupied 0).isSome = true
      ∧ (fnBoard.mov bAllOccupied 0 0).isSome = true :=
  ⟨fnBoard_lawful, rfl, by decide⟩

/-- C2 (amended): for every board with lawful primitives and every pair of
DISTINCT coordinates `src ≠ dst` such that `dst` is occupied, the default
`mov(src, dst)` fails fatally — either at `pop` (when `src` is empty) or at
`assert_empty(dst)` (which still sees the occupied destination). -/
theorem mov_fatal_if_dst_occupied {B C P : Type} (ops : IsBoard B C P)
    (hl : LawfulBoard ops) (b : B) (src dst : C) (hne : src ≠ dst)
    (hocc : (ops.peek b dst).isSome = true) :
    ops.mov b src dst = none := by
  unfold IsBoard.mov
  have hframe := hl.pop_frame b src dst hne.symm
  have hempty := hl.empty_iff (ops.pop b src).2 dst
  cases hpop : ops.pop b src with
  | mk fst snd =>
    rw [hpop] at hframe hempty
    cases fst with
    | none => rfl
    | some piece =>
      have hfalse : ops.assert_empty snd dst = false := by
        rw [hempty, hframe]
        rcases hv : ops.peek b dst with _ | v
        · rw [hv] at hocc
          simp at hocc
        · rfl
      simp [hfalse]

/-- C2 witness: on the concrete lawful board with every square occupied,
moving from square 0 to the distinct occupied square 1 fails fatally. -/
theorem mov_fatal_if_dst_occupied_witness :
    fnBoard.mov bAllOccupied 0 1 = none :=
  mov_fatal_if_dst_occupied fnBoard fnBoard_lawful bAllOccupied 0 1
    (by decide) rfl

/-- C3: for every board with lawful primitives and distinct coordinates, the
default `mov` pops the piece at `src` (failing fatally when `src` is empty),
fails fatally when `dst` is occupied, and otherwise puts the popped piece at
`dst`: on success `src` is vacated, the same piece sits at `dst`, no capture
occurs (`dst` was empty), and every other coordinate is unchanged. -/
theorem mov_spec {B C P : Type} (ops : IsBoard B C P) (hl : LawfulBoard ops)
    (b : B) (src dst : C) (hne : src ≠ dst) :
    (ops.peek b src = none → ops.mov b src dst = none)
  ∧ (∀ piece, ops.peek b src = some piece →
      (ops.peek b dst).isSome = true → ops.mov b src dst = none)
  ∧ (∀ piece, ops.peek b src = some piece → ops.peek b dst = none →
      ∃ b2, ops.mov b src dst = some b2
        ∧ ops.peek b2 src = none
        ∧ ops.peek b2 dst = some piece
        ∧ ∀ d, d ≠ src → d ≠ dst → ops.peek b2 d = ops.peek b d) := by
  refine ⟨?_, ?_, ?_⟩
  · intro h
    unfold IsBoard.mov
    have hfst := hl.pop_fst b src
    cases hpop : ops.pop b src with
    | mk fst snd =>
      rw [hpop] at hfst
      simp only at hfst
      rw [hfst, h]
  · intro piece _ hocc
    exact mov_fatal_if_dst_occupied ops hl b src dst hne hocc
  · intro piece hsrc hdst
    unfold IsBoard.mov
    have hfst := hl.pop_fst b src
    have hframe := hl.pop_frame b src dst hne.symm
    have hself := hl.pop_self b src
    have hempty := hl.empty_iff (ops.pop b src).2 dst
    cases hpop : ops.pop b src with
    | mk fst snd =>
      rw [hpop] at hfst hframe hself hempty
      simp only at hfst hframe hself hempty
      rw [hfst, hsrc]
      have htrue : ops.assert_empty snd dst = true := by
        rw [hempty, hframe, hdst]
        rfl
      dsimp only
      rw [if_pos htrue]
      refine ⟨ops.put snd dst (some piece), rfl, ?_, ?_, ?_⟩
      · rw [hl.put_frame snd dst (some piece) src hne, hself]
      · exact hl.put_self snd dst (some piece)
      · intro d hds hdd
        rw [hl.put_frame snd dst (some piece) d hdd]
        have := hl.pop_frame b src d hds
        rw [hpop] at this
        exact this

/-- C3 witness: on the concrete lawful board holding only the piece 5 at
square 0, moving from 0 to the empty square 1 succeeds with 0 vacated, the
piece 5 at 1, and square 2 untouched. -/
theorem mov_spec_witness :
    ∃ b2, fnBoard.mov bZeroOnly 0 1 = some b2
      ∧ fnBoard.peek b2 0 = none
      ∧ fnBoard.peek b2 1 = some 5
      ∧ ∀ d, d ≠ 0 → d ≠ 1 → fnBoard.peek b2 d = fnBoard.peek bZeroOnly d :=
  (mov_spec fnBoard fnBoard_lawful bZeroOnly 0 1 (by decide)).2.2 5 rfl rfl

/-- C8: for every board with lawful primitives and every coordinate `c`
occupied by a piece, the default `mov(c, c)` does not fail fatally: `pop`
vacates the square, so `assert_empty` passes, and the board ends with the
same piece at `c` and every other coordinate unchanged — a successful
no-op despite the occupied destination. -/
theorem mov_same_square_succeeds {B C P : Type} (ops : IsBoard B C P)
    (hl : LawfulBoard ops) (b : B) (c : C) (piece : P)
    (hocc : ops.peek b c = some piece) :
    ∃ b2, ops.mov b c c = some b2
      ∧ ops.peek b2 c = some piece
      ∧ ∀ d, d ≠ c → ops.peek b2 d = ops.peek b d := by
  unfold IsBoard.mov
  have hfst := hl.pop_fst b c
  have hself := hl.pop_self b c
  have hempty := hl.empty_iff (ops.pop b c).2 c
  cases hpop : ops.pop b c with
  | mk fst snd =>
    rw [hpop] at hfst hself hempty
    simp only at hfst hself hempty
    rw [hfst, hocc]
    have htrue : ops.assert_empty snd c = true := by
      rw [hempty, hself]
      rfl
    dsimp only
    rw [if_pos htrue]
    refine ⟨ops.put snd c (some piece), rfl, hl.put_self snd c (some piece), ?_⟩
    intro d hd
    rw [hl.put_frame snd c (some piece) d hd]
    have := hl.pop_frame b c d hd
    rw [hpop] at this
    exact this

/-- C8 witness: on the concrete lawful board with every square holding the
piece 7, `mov(2, 2)` succeeds, leaves the piece 7 at square 2 and every
other square unchanged. -/
theorem mov_same_square_succeeds_witness :
    ∃ b2, fnBoard.mov bAllOccupied 2 2 = some b2
      ∧ fnBoard.peek b2 2 = some 7
      ∧ ∀ d, d ≠ 2 → fnBoard.peek b2 d = fnBoard.peek bAllOccupied d :=
  mov_same_square_succeeds fnBoard fnBoard_lawful bAllOccupied 2 7 rfl

/-- C9: `relative_clone_and_set` operates on a by-value copy of the input
board (in this pure embedding the input is untouched by construction), and
for lawful primitives the returned board differs from the input at most at
`coord`: it holds exactly `p` at `coord` and peeks the same as the input at
every other coordinate. -/
theorem relative_clone_and_set_frame {B C P : Type} (ops : IsBoard B C P)
    (hl : LawfulBoard ops) (board : B) (coord : C) (p : Option P) :
    ops.peek (relative_clone_and_set ops board coord p) coord = p
  ∧ ∀ d, d ≠ coord →
      ops.peek (relative_clone_and_set ops board coord p) d =
        ops.peek board d :=
  ⟨hl.put_self board coord p, fun d hd => hl.put_frame board coord p d hd⟩

/-- C9 witness: on the concrete lawful board, cloning-and-setting square 1
to the piece 9 yields a board with 9 at square 1 and all other squares as
before. -/
theorem relative_clone_and_set_frame_witness :
    fnBoard.peek (relative_clone_and_set fnBoard bZeroOnly 1 (some 9)) 1 =
      some 9
  ∧ ∀ d, d ≠ 1 →
      fnBoard.peek (relative_clone_and_set fnBoard bZeroOnly 1 (some 9)) d =
        fnBoard.peek bZeroOnly d :=
  relative_clone_and_set_frame fnBoard fnBoard_lawful bZeroOnly 1 (some 9)

/-- C6: for every piece and profession, the default `has_prof(p)` equals
`match_on_piece_and_apply` applied to the constant-false neutral handler and
the profession-equality ordinary handler; in particular, on a neutral piece
(one whose case analysis always takes the neutral branch) `has_prof` is
false for every profession. -/
theorem has_prof_matches_default {P S Color Prof : Type} [DecidableEq Prof]
    (ops : IsPieceWithSide P S Color Prof) (piece : P) (prof : Prof) :
    ops.has_prof piece prof =
      ops.match_on_piece_and_apply piece (fun _ => false)
        (fun _ p _ => decide (p = prof))
  ∧ ((∀ (U : Type) (f_tam : Unit → U) (f_piece : Color → Prof → S → U),
        ops.match_on_piece_and_apply piece f_tam f_piece = f_tam ()) →
      ops.has_prof piece prof = false) :=
  ⟨rfl, fun h => h Bool (fun _ => false) (fun _ p _ => decide (p = prof))⟩

/-- C6 witness: on the concrete piece representation, the neutral piece Tam2
satisfies the neutral-branch hypothesis, so `has_prof` is false on it. -/
theorem has_prof_matches_default_witness :
    (pieceOps TColor TProf AbsoluteSide).has_prof PieceWithSide.tam2
      TProf.kauk2 = false :=
  (has_prof_matches_default (pieceOps TColor TProf AbsoluteSide)
      PieceWithSide.tam2 TProf.kauk2).2 (fun _ _ _ => rfl)

/-- C7: each deprecated free-function entry point computes exactly the same
result as its method-based counterpart: `relative_get(board, coord)` and
`absolute_get(board, coord)` both equal `board.peek(coord)`, and
`has_prof_absolute(piece, prof)` equals `piece.has_prof(prof)`. -/
theorem deprecated_free_functions_agree :
    (∀ (B C P : Type) (ops : IsBoard B C P) (board : B) (coord : C),
      relative_get ops board coord = ops.peek board coord)
  ∧ (∀ (B C P : Type) (ops : IsBoard B C P) (board : B) (coord : C),
      absolute_get ops board coord = ops.peek board coord)
  ∧ (∀ (P S Color Prof : Type) [DecidableEq Prof]
      (ops : IsPieceWithSide P S Color Prof) (piece : P) (prof : Prof),
      has_prof_absolute ops piece prof = ops.has_prof piece prof) :=
  ⟨fun _ _ _ _ _ _ => rfl, fun _ _ _ _ _ _ => rfl,
    fun _ _ _ _ _ _ _ _ => rfl⟩

/-- C10: the deprecated facade `match_on_piece_and_apply` discards the
piece's color: it equals the underlying piece-level case analysis with the
ordinary handler wrapped to drop its color argument, and on the concrete
piece representation two ordinary pieces differing only in color produce
identical results through this entry point. -/
theorem facade_match_discards_color :
    (∀ (P S Color Prof U : Type) (ops : IsPieceWithSide P S Color Prof)
      (piece : P) (f_tam : Unit → U) (f_piece : Prof → S → U),
      facade_match_on_piece_and_apply ops piece f_tam f_piece =
        ops.match_on_piece_and_apply piece f_tam (fun _c p s => f_piece p s))
  ∧ (∀ (U : Type) (c1 c2 : TColor) (p : TProf) (s : AbsoluteSide)
      (f_tam : Unit → U) (f_piece : TProf → AbsoluteSide → U),
      facade_match_on_piece_and_apply (pieceOps TColor TProf AbsoluteSide)
          (PieceWithSide.piece c1 p s) f_tam f_piece =
        facade_match_on_piece_and_apply (pieceOps TColor TProf AbsoluteSide)
          (PieceWithSide.piece c2 p s) f_tam f_piece) :=
  ⟨fun _ _ _ _ _ _ _ _ _ => rfl, fun _ _ _ _ _ _ _ => rfl⟩

/-- C1: the move transaction is a total function returning either a new
Field or one of the four named recoverable failures (never a fatal crash);
each violated precondition, in the documented order, produces its named
failure, and otherwise a new Field is returned.  In this pure embedding the
Field argument is taken immutably, so the original Field is unchanged and no
partial effect is observable on failure by construction. -/
theorem move_transaction_rejects_each_violated_precondition
    {Coord Color Prof : Type} [DecidableEq Coord]
    (f : Field Coord Color Prof) (src dst : Coord) (wt : AbsoluteSide) :
    (f.board src = none →
      f.move_nontam_piece_from_src_to_dest_while_taking_opponent_piece_if_needed
        src dst wt = .error .srcIsUnoccupied)
  ∧ (f.board src = some .tam2 →
      f.move_nontam_piece_from_src_to_dest_while_taking_opponent_piece_if_needed
        src dst wt = .error .srcHasTam2)
  ∧ (∀ c p s, f.board src = some (.piece c p s) →
      f.board dst = some .tam2 →
      f.move_nontam_piece_from_src_to_dest_while_taking_opponent_piece_if_needed
        src dst wt = .error .dstHasTam2)
  ∧ (∀ c p s, f.board src = some (.piece c p s) →
      f.board dst ≠ some PieceWithSide.tam2 → s ≠ wt →
      f.move_nontam_piece_from_src_to_dest_while_taking_opponent_piece_if_needed
        src dst wt = .error .srcDoesNotBelongToWhoseTurn)
  ∧ (∀ c p s, f.board src = some (.piece c p s) →
      f.board dst ≠ some PieceWithSide.tam2 → s = wt →
      ∃ f2,
        f.move_nontam_piece_from_src_to_dest_while_taking_opponent_piece_if_needed
          src dst wt = .ok f2) := by
  refine ⟨?_, ?_, ?_, ?_, ?_⟩
  · intro h
    simp only
      [Field.move_nontam_piece_from_src_to_dest_while_taking_opponent_piece_if_needed,
       h]
  · intro h
    simp only
      [Field.move_nontam_piece_from_src_to_dest_while_taking_opponent_piece_if_needed,
       h]
  · intro c p s h1 h2
    simp only
      [Field.move_nontam_piece_from_src_to_dest_while_taking_opponent_piece_if_needed,
       h1, h2]
  · intro c p s h1 h2 h3
    rcases hdst : f.board dst with _ | pc
    · simp only
        [Field.move_nontam_piece_from_src_to_dest_while_taking_opponent_piece_if_needed,
         h1, hdst, if_neg h3]
    · cases pc with
      | tam2 => exact absurd hdst h2
      | piece cc pp ss =>
        simp only
          [Field.move_nontam_piece_from_src_to_dest_while_taking_opponent_piece_if_needed,
           h1, hdst, if_neg h3]
  · intro c p s h1 h2 h3
    rcases hdst : f.board dst with _ | pc
    · simp only
        [Field.move_nontam_piece_from_src_to_dest_while_taking_opponent_piece_if_needed,
         h1, hdst]
      rw [if_pos h3]
      exact ⟨_, rfl⟩
    · cases pc with
      | tam2 => exact absurd hdst h2
      | piece cc pp ss =>
        simp only
          [Field.move_nontam_piece_from_src_to_dest_while_taking_opponent_piece_if_needed,
           h1, hdst]
        rw [if_pos h3]
        exact ⟨_, rfl⟩

/-- C1 witness: on the concrete field `fSample`, moving side ASide's own
ordinary piece from square 0 to the empty square 2 on ASide's turn succeeds
with a new Field. -/
theorem move_transaction_witness :
    ∃ f2,
      Field.move_nontam_piece_from_src_to_dest_while_taking_opponent_piece_if_needed
        fSample 0 2 AbsoluteSide.ASide = .ok f2 :=
  (move_transaction_rejects_each_violated_precondition fSample 0 2
      AbsoluteSide.ASide).2.2.2.2 TColor.kok1 TProf.kauk2 AbsoluteSide.ASide
    (by decide) (by decide) rfl

/-- C4: the parachute operation yields `none` when no matching entry is in
the side's reserve or when the destination is occupied (the Field argument
being immutable in this pure embedding, nothing is mutated); otherwise it
returns a new Field with exactly one matching entry removed from the side's
reserve, one ordinary piece tagged (color, profession, side) at `dest`,
every other square unchanged, every other reserve-entry count unchanged, and
the other side's reserve unchanged. -/
theorem parachute_spec {Coord Color Prof : Type} [DecidableEq Coord]
    [DecidableEq Color] [DecidableEq Prof] (f : Field Coord Color Prof)
    (color : Color) (prof : Prof) (side : AbsoluteSide) (dest : Coord) :
    ((color, prof) ∉ f.hop1zuo1 side →
      f.search_from_hop1zuo1_and_parachute_at color prof side dest = none)
  ∧ ((f.board dest).isSome = true →
      f.search_from_hop1zuo1_and_parachute_at color prof side dest = none)
  ∧ ((color, prof) ∈ f.hop1zuo1 side → f.board dest = none →
      ∃ f2,
        f.search_from_hop1zuo1_and_parachute_at color prof side dest = some f2
        ∧ f2.board dest = some (PieceWithSide.piece color prof side)
        ∧ (∀ x, x ≠ dest → f2.board x = f.board x)
        ∧ (f2.hop1zuo1 side).count (color, prof) + 1 =
            (f.hop1zuo1 side).count (color, prof)
        ∧ (∀ e, e ≠ (color, prof) →
            (f2.hop1zuo1 side).count e = (f.hop1zuo1 side).count e)
        ∧ (∀ sd, sd ≠ side → f2.hop1zuo1 sd = f.hop1zuo1 sd)) := by
  refine ⟨?_, ?_, ?_⟩
  · intro h
    simp only [Field.search_from_hop1zuo1_and_parachute_at, if_neg h]
  · intro h
    rcases Option.isSome_iff_exists.mp h with ⟨v, hv⟩
    simp only [Field.search_from_hop1zuo1_and_parachute_at, hv, ite_self]
  · intro hmem hdst
    have heq : f.search_from_hop1zuo1_and_parachute_at color prof side dest =
        some
          { board := fun x =>
              if x = dest then some (PieceWithSide.piece color prof side)
              else f.board x
            hop1zuo1 := fun sd =>
              if sd = side then (f.hop1zuo1 sd).erase (color, prof)
              else f.hop1zuo1 sd } := by
      simp only [Field.search_from_hop1zuo1_and_parachute_at, if_pos hmem,
        hdst]
    refine ⟨_, heq, ?_, ?_, ?_, ?_, ?_⟩
    · dsimp only
      rw [if_pos rfl]
    · intro x hx
      dsimp only
      rw [if_neg hx]
    · dsimp only
      rw [if_pos rfl]
      have h1 := List.count_erase_self (color, prof) (f.hop1zuo1 side)
      have h2 : 0 < (f.hop1zuo1 side).count (color, prof) :=
        List.count_pos_iff.mpr hmem
      omega
    · intro e he
      dsimp only
      rw [if_pos rfl]
      exact List.count_erase_of_ne he (f.hop1zuo1 side)
    · intro sd hsd
      dsimp only
      rw [if_neg hsd]

/-- C4 witness: on the concrete field `fSample`, whose ASide reserve holds
one (kok1, kauk2) entry, parachuting a kok1 kauk2 piece for ASide onto the
empty square 2 succeeds with the entry removed and the piece placed. -/
theorem parachute_spec_witness :
    ∃ f2,
      Field.search_from_hop1zuo1_and_parachute_at fSample TColor.kok1
        TProf.kauk2 AbsoluteSide.ASide 2 = some f2
      ∧ f2.board 2 =
          some (PieceWithSide.piece TColor.kok1 TProf.kauk2 AbsoluteSide.ASide)
      ∧ (∀ x, x ≠ 2 → f2.board x = fSample.board x)
      ∧ (f2.hop1zuo1 AbsoluteSide.ASide).count (TColor.kok1, TProf.kauk2) + 1 =
          (fSample.hop1zuo1 AbsoluteSide.ASide).count (TColor.kok1, TProf.kauk2)
      ∧ (∀ e, e ≠ (TColor.kok1, TProf.kauk2) →
          (f2.hop1zuo1 AbsoluteSide.ASide).count e =
            (fSample.hop1zuo1 AbsoluteSide.ASide).count e)
      ∧ (∀ sd, sd ≠ AbsoluteSide.ASide →
          f2.hop1zuo1 sd = fSample.hop1zuo1 sd) :=
  (parachute_spec fSample TColor.kok1 TProf.kauk2 AbsoluteSide.ASide 2).2.2
    (by decide) (by decide)

/-- C5: the perspective-parameterized coordinate conversion satisfies the
round-trip law: converting a relative coordinate to absolute and back under
the same perspective is the identity, and converting an absolute coordinate
reachable from some relative coordinate to relative and back is likewise the
identity. -/
theorem coord_round_trip :
    (∀ (c : Coord9) (p : Perspective),
      to_relative_coord (to_absolute_coord c p) p = c)
  ∧ (∀ (a : Coord9) (p : Perspective),
      (∃ c, to_absolute_coord c p = a) →
      to_absolute_coord (to_relative_coord a p) p = a) := by
  constructor
  · intro c p
    cases p with
    | iaIsDownAndPointsUpward => rfl
    | aIsDownAndPointsUpward =>
      obtain ⟨⟨r, hr⟩, ⟨q, hq⟩⟩ := c
      simp only [to_absolute_coord, to_relative_coord, Prod.mk.injEq]
      constructor <;> (apply Fin.ext; simp; omega)
  · intro a p _h
    cases p with
    | iaIsDownAndPointsUpward => rfl
    | aIsDownAndPointsUpward =>
      obtain ⟨⟨r, hr⟩, ⟨q, hq⟩⟩ := a
      simp only [to_absolute_coord, to_relative_coord, Prod.mk.injEq]
      constructor <;> (apply Fin.ext; simp; omega)

/-- C5 witness: the absolute corner (0, 0) is reachable from the relative
coordinate (8, 8) under the rotating perspective, and converting it to
relative and back is the identity. -/
theorem coord_round_trip_witness :
    to_absolute_coord
      (to_relative_coord (0, 0) Perspective.aIsDownAndPointsUpward)
      Perspective.aIsDownAndPointsUpward = (0, 0) :=
  coord_round_trip.2 (0, 0) Perspective.aIsDownAndPointsUpward
    ⟨(8, 8), by decide⟩

end CetkaikTraits
